import Mathlib

/-
  Verification of the Aim25 research-automation pipeline
  (atlas_backend: optimized_pipeline.py, agents.py, data_models.py).

  The definitions below are a shallow embedding of the Python code:
  Python values flowing through the extraction pipeline become the
  inductive type `Value` with Python truthiness, dictionaries become
  association lists with Python `get`/`[]=` semantics, and the pure
  decision logic (validators, sentinel cleaning, priority sorting,
  the retry loop, the deduplicated scraper and graph derivation) is
  translated function by function.  Effectful collaborators (the LLM
  and the browser) are modelled as oracles passed in as parameters;
  a raised Python exception is modelled by `Except.error` and a
  `None` return by `Option.none`.
-/

namespace Atlas

/-- A Python value as it flows through the extraction pipeline:
`none`/bool/number/string/list/dict (JSON-like shapes). -/
inductive Value where
  | null : Value
  | bool (b : Bool) : Value
  | num (n : Int) : Value
  | str (s : String) : Value
  | list (l : List Value) : Value
  | dict (d : List (String × Value)) : Value

/-- Python truthiness (`bool(v)`): `None`, `False`, `0`, `""`, `[]`, `{}`
are falsy, everything else is truthy. -/
def truthy : Value → Bool
  | .null => false
  | .bool b => b
  | .num n => n != 0
  | .str s => s != ""
  | .list l => !l.isEmpty
  | .dict d => !d.isEmpty

/-- A Python dict (insertion ordered, keys unique by construction). -/
abbrev Dict := List (String × Value)

/-- Python `d.get(k)`: the value bound to `k`, `None` when absent. -/
def dictGet : Dict → String → Value
  | [], _ => .null
  | kv :: rest, k => if kv.1 == k then kv.2 else dictGet rest k

/-- Python `d[k] = v`: overwrite the existing binding of `k` in place,
or append a new binding at the end (Python dicts keep insertion order). -/
def dictSet : Dict → String → Value → Dict
  | [], k, v => [(k, v)]
  | kv :: rest, k, v => if kv.1 == k then (k, v) :: rest else kv :: dictSet rest k v

/-- Python `s.lower()` (ASCII case folding, as used by the pipeline). -/
def pyLower (s : String) : String := ⟨s.data.map Char.toLower⟩

/-- Python `s.strip()`: remove leading and trailing whitespace. -/
def pyStrip (s : String) : String :=
  ⟨((s.data.dropWhile Char.isWhitespace).reverse.dropWhile Char.isWhitespace).reverse⟩

/-- Python `s.strip().lower()`, the normalization both validators apply
to string field values. -/
def pyStripLower (s : String) : String := pyLower (pyStrip s)

/-- Python `len` on a string (number of characters). -/
def pyLen (s : String) : Nat := s.data.length

/-- The sentinel phrases of `ValidationEngine.validate_extraction`
(optimized_pipeline.py line 579). -/
def bulkSentinels : List String := ["not found", "n/a", "unknown", "none", ""]

/-- The sentinel phrases of `OptimizedResearchAgent._is_valid_field_data`
(optimized_pipeline.py line 858): the bulk list plus `"null"`. -/
def retrySentinels : List String := ["not found", "n/a", "unknown", "none", "null", ""]

/-- The per-value missingness test inside the field loop of
`ValidationEngine.validate_extraction` (optimized_pipeline.py lines 572-587):
falsy values are missing; a string is missing when its stripped, lower-cased
form is shorter than 5 characters or is a sentinel phrase; a list is missing
when empty; every other (truthy) value is not missing. -/
def fieldValueMissing (v : Value) : Bool :=
  if truthy v = false then true
  else
    match v with
    | Value.str s =>
      let cleaned := pyStripLower s
      decide (pyLen cleaned < 5) || bulkSentinels.contains cleaned
    | Value.list l => l.isEmpty
    | _ => false

/-- `OptimizedResearchAgent._is_valid_field_data` (optimized_pipeline.py
lines 849-865): falsy data is invalid; a string is valid when its stripped,
lower-cased form has length at least 3 and is not a sentinel; a list is valid
when non-empty (`len(data) > 0`); every other truthy value is valid. -/
def isValidFieldData (v : Value) : Bool :=
  if truthy v = false then false
  else
    match v with
    | Value.str s =>
      let cleaned := pyStripLower s
      if pyLen cleaned < 3 then false
      else if retrySentinels.contains cleaned then false
      else true
    | Value.list l => decide (0 < l.length)
    | _ => true

/-- `ValidationEngine.FIELD_MAPPING.get(field, field)` (optimized_pipeline.py
lines 540-549): the two description fields map to their internal aliases,
every other name maps to itself. -/
def fieldMapping (field : String) : String :=
  if field == "long_description" then "description_long"
  else if field == "short_description" then "description_short"
  else field

/-- `ValidationEngine.CRITICAL_FIELDS` (optimized_pipeline.py line 552). -/
def criticalFields : List String := ["long_description", "industry", "sector"]

/-- `ValidationEngine.IMPORTANT_FIELDS` (optimized_pipeline.py line 555). -/
def importantFields : List String := ["short_description", "sic_code", "sic_text", "sub_industry", "tags"]

/-- `ValidationEngine.get_field_priority` (optimized_pipeline.py lines 595-602). -/
def getFieldPriority (field : String) : Nat :=
  if criticalFields.contains field then 1
  else if importantFields.contains field then 2
  else 3

/-- `ValidationEngine.sort_missing_by_priority` (optimized_pipeline.py
lines 604-606): `sorted(missing_fields, key=self.get_field_priority)`.
Python `sorted` is a stable sort, and with a key ranging over {1, 2, 3}
a stable sort is exactly the concatenation of the key-1, key-2 and key-3
sublists in input order. -/
def sortMissingByPriority (l : List String) : List String :=
  l.filter (fun f => getFieldPriority f == 1)
    ++ l.filter (fun f => getFieldPriority f == 2)
    ++ l.filter (fun f => getFieldPriority f == 3)

/-- The sentinel phrases of `MicroAgent._clean_data` (agents.py line 150). -/
def cleanSentinels : List String := ["not found", "n/a", "unknown", "none", "no information"]

mutual
/-- `MicroAgent._clean_data` (agents.py lines 144-157): a string whose
lower-cased form is a sentinel becomes `""`; a list keeps its truthy
elements (`if item`) and cleans each; a dict cleans every value;
everything else is returned unchanged. -/
def cleanData : Value → Value
  | .str s => if cleanSentinels.contains (pyLower s) then .str "" else .str s
  | .list l => .list (cleanList l)
  | .dict d => .dict (cleanDict d)
  | .null => .null
  | .bool b => .bool b
  | .num n => .num n

/-- The list comprehension `[self._clean_data(item) for item in data if item]`. -/
def cleanList : List Value → List Value
  | [] => []
  | x :: xs => if truthy x then cleanData x :: cleanList xs else cleanList xs

/-- The dict comprehension `{k: self._clean_data(v) for k, v in data.items()}`. -/
def cleanDict : List (String × Value) → List (String × Value)
  | [] => []
  | (k, v) :: xs => (k, cleanData v) :: cleanDict xs
end

mutual
/-- A value is clean when every string in it (at any depth) is non-sentinel
and every list element in it (at any depth) is truthy. -/
def isCleanV : Value → Bool
  | .str s => !cleanSentinels.contains (pyLower s)
  | .list l => isCleanL l
  | .dict d => isCleanD d
  | _ => true

def isCleanL : List Value → Bool
  | [] => true
  | x :: xs => truthy x && isCleanV x && isCleanL xs

def isCleanD : List (String × Value) → Bool
  | [] => true
  | (_, v) :: xs => isCleanV v && isCleanD xs
end

/-- The attempt loop body of `OptimizedResearchAgent._retry_missing_fields`
for one field (optimized_pipeline.py lines 722-751), over an explicit list of
attempt numbers.  `f` is the oracle for `_execute_field_retry` (its `None`
return is `Option.none`).  Returns the attempt numbers on which retry queries
were generated and `_execute_field_retry` was invoked, and the first accepted
value, if any: on each attempt the Python loop stores the result and stops
(`field_found = True`, then `break` at the top of the next iteration) exactly
when the result is truthy (`if field_data:`) and passes
`_is_valid_field_data`. -/
def runAttempts (f : Nat → Option Value) : List Nat → List Nat × Option Value
  | [] => ([], none)
  | a :: rest =>
    match f a with
    | some v =>
      if truthy v && isValidFieldData v then ([a], some v)
      else (a :: (runAttempts f rest).1, (runAttempts f rest).2)
    | none => (a :: (runAttempts f rest).1, (runAttempts f rest).2)

/-- The per-field retry loop `for attempt in range(1, self.max_retries + 1)`
(optimized_pipeline.py line 724). -/
def retryOneField (f : Nat → Option Value) (maxRetries : Nat) : List Nat × Option Value :=
  runAttempts f (List.range' 1 maxRetries)

/-- The extraction-state update of `_retry_missing_fields` (optimized_pipeline.py
lines 741-744): on success the value is stored under the internal field name and
the original field name; otherwise the state is untouched. -/
def retryUpdate (data : Dict) (field : String) : Option Value → Dict
  | some v => dictSet (dictSet data (fieldMapping field) v) field v
  | none => data

/-- The outer loop of `OptimizedResearchAgent._retry_missing_fields`
(optimized_pipeline.py lines 712-756) over the prioritized missing fields. -/
def retryMissingFields (f : String → Nat → Option Value) (maxRetries : Nat) :
    Dict → List String → Dict
  | data, [] => data
  | data, field :: rest =>
    retryMissingFields f maxRetries
      (retryUpdate data field (retryOneField (f field) maxRetries).2) rest

/-- `value = data.get(internal_field) or data.get(field)` as used by
`_log_final_status` (optimized_pipeline.py line 872) and
`validate_extraction` (line 570): Python `or` keeps the first operand
when truthy and otherwise yields the second. -/
def finalFieldValue (data : Dict) (field : String) : Value :=
  let v := dictGet data (fieldMapping field)
  if truthy v then v else dictGet data field

/-- The per-field test of `OptimizedResearchAgent._log_final_status`
(optimized_pipeline.py line 873): the field is reported found exactly when
`value and self._is_valid_field_data(value)`; otherwise it is reported
MISSING. -/
def finalFieldOk (data : Dict) (field : String) : Bool :=
  truthy (finalFieldValue data field) && isValidFieldData (finalFieldValue data field)

/-- One alias back-fill block of `BulkExtractor.extract_all_fields`
(optimized_pipeline.py lines 506-516): copy `a` to `b` when only `a` is
truthy, and `b` to `a` when only `b` is. -/
def aliasPair (r : Dict) (a b : String) : Dict :=
  if truthy (dictGet r a) && !truthy (dictGet r b) then dictSet r b (dictGet r a)
  else if truthy (dictGet r b) && !truthy (dictGet r a) then dictSet r a (dictGet r b)
  else r

/-- `BulkExtractor.extract_all_fields` after prompt construction
(optimized_pipeline.py lines 502-518).  The `llm.generate_json` call is the
parameter `gen`: `Except.error` models an exception raised inside the call,
`Except.ok` its returned dict.  The Python body has no try/except, so an
exception simply propagates to the caller; a returned dict gets the two alias
back-fills when truthy, and `return result if result else {}`. -/
def extractAllFields (gen : Except String Dict) : Except String Dict :=
  match gen with
  | .error e => .error e
  | .ok result =>
    let result :=
      if !result.isEmpty then
        aliasPair (aliasPair result "long_description" "description_long")
          "short_description" "description_short"
      else result
    .ok (if !result.isEmpty then result else [])

/-- The tail of `MicroAgent._execute_research_attempt` (agents.py lines
110-112): `result = self.llm.generate_json(prompt)` (no try/except, so an
exception propagates), then `data = result.get("data")` and
`return self._clean_data(data)`. -/
def executeResearchAttempt (gen : Except String Dict) : Except String Value :=
  match gen with
  | .error e => .error e
  | .ok result => .ok (cleanData (dictGet result "data"))

/-- `ParallelBrowserEngine.scrape_deduplicated_urls`'s denylist
(optimized_pipeline.py line 377). -/
def skipDomains : List String := ["facebook.com", "twitter.com", "instagram.com", "youtube.com", "tiktok.com"]

/-- Substring occurrence over character lists. -/
def charsContain (pat : List Char) : List Char → Bool
  | [] => pat.isEmpty
  | c :: rest => pat.isPrefixOf (c :: rest) || charsContain pat rest

/-- Python `pat in s` (substring containment). -/
def strContains (s pat : String) : Bool := charsContain pat.data s.data

/-- The characters following the first `"://"`, if any. -/
def afterScheme : List Char → Option (List Char)
  | [] => none
  | c :: rest =>
    if [':', '/', '/'].isPrefixOf (c :: rest) then some (rest.drop 2)
    else afterScheme rest

/-- `urlparse(url).netloc.lower()` for the http/https URLs the pipeline
collects: the text between `"://"` and the next `/`, lower-cased. -/
def netlocLower (url : String) : String :=
  match afterScheme url.data with
  | some cs => pyLower ⟨cs.takeWhile (fun c => c != '/')⟩
  | none => ""

/-- `any(skip in domain for skip in skip_domains)` (optimized_pipeline.py
lines 389-391). -/
def isSkippedDomain (url : String) : Bool :=
  skipDomains.any (fun d => strContains (netlocLower url) d)

/-- The mutable state of `ParallelBrowserEngine` during
`scrape_deduplicated_urls`: the run-scoped `self.scraped_content` cache, the
`combined_content` accumulator, the `scraped_count`, plus a ghost trace of
every URL passed to `browser.scrape_text` (a network fetch). -/
structure ScrapeState where
  cache : List (String × String)
  combined : String
  count : Nat
  trace : List String

/-- `url in self.scraped_content` / `self.scraped_content[url]`. -/
def cacheLookup (c : List (String × String)) (u : String) : Option String :=
  match c.find? (fun kv => kv.1 == u) with
  | some kv => some kv.2
  | none => none

/-- The loop of `ParallelBrowserEngine.scrape_deduplicated_urls`
(optimized_pipeline.py lines 379-401): stop once `scraped_count` reaches
`max_urls`; reuse the run-scoped cache without a fetch; skip denylisted
hosts; otherwise call `browser.scrape_text` (recorded in `trace`; the oracle
`scrape` returns `none` for an exception and the page text otherwise) and,
when the content is truthy, cache it, append it to the combined content and
count it. -/
def scrapeLoop (scrape : String → Option String) (maxUrls : Nat) :
    List String → ScrapeState → ScrapeState
  | [], st => st
  | url :: rest, st =>
    if maxUrls ≤ st.count then st
    else
      match cacheLookup st.cache url with
      | some c =>
        scrapeLoop scrape maxUrls rest
          { st with combined := st.combined ++ "\n\n--- CACHED: " ++ url ++ " ---\n" ++ c }
      | none =>
        if isSkippedDomain url then scrapeLoop scrape maxUrls rest st
        else
          match scrape url with
          | some content =>
            if content != "" then
              scrapeLoop scrape maxUrls rest
                { cache := st.cache ++ [(url, content)],
                  combined := st.combined ++ "\n\n--- SOURCE: " ++ url ++ " ---\n" ++ content,
                  count := st.count + 1,
                  trace := st.trace ++ [url] }
            else scrapeLoop scrape maxUrls rest { st with trace := st.trace ++ [url] }
          | none => scrapeLoop scrape maxUrls rest { st with trace := st.trace ++ [url] }

/-- `ParallelBrowserEngine.scrape_deduplicated_urls` (optimized_pipeline.py
lines 366-404): iterate over `urls[:max_urls * 2]`. -/
def scrapeDeduplicatedUrls (scrape : String → Option String) (urls : List String)
    (maxUrls : Nat) (st : ScrapeState) : ScrapeState :=
  scrapeLoop scrape maxUrls (urls.take (maxUrls * 2)) st

/-- The URLs `OptimizedResearchAgent._execute_field_retry` passes to
`browser.scrape_text` (optimized_pipeline.py lines 780-787): `urls[:2]`,
with no denylist check and no consultation of the run-scoped cache. -/
def retryScrapeUrls (urls : List String) : List String := urls.take 2

/-- `KeyPerson` (data_models.py), restricted to the fields graph building
reads. -/
structure KeyPerson where
  name : String
  title : String
deriving DecidableEq, Repr

/-- `GraphNode` (data_models.py). -/
structure GraphNode where
  id : String
  label : String
  type : String
  properties : List (String × String)
deriving DecidableEq, Repr

/-- `GraphEdge` (data_models.py). -/
structure GraphEdge where
  source : String
  target : String
  relation : String
deriving DecidableEq, Repr

/-- `CompanyProfile` (data_models.py), restricted to the fields the two
`_build_graph` implementations read, plus a description field to witness
that the graph ignores unrelated profile content. -/
structure Profile where
  name : String
  domain : String
  descriptionLong : String
  industry : String
  keyPeople : List KeyPerson
  locations : List String
  productsServices : List String
deriving DecidableEq, Repr

/-- `OptimizedResearchAgent._build_graph` (optimized_pipeline.py lines
949-978) as the pure derivation it performs: the company root node, one
person node and `works_at` edge per key person, one location node and
`located_at` edge per location. -/
def buildGraphOptimized (p : Profile) : List GraphNode × List GraphEdge :=
  let personNodes := p.keyPeople.enum.map (fun ip =>
    GraphNode.mk ("node_person_" ++ toString ip.1) ip.2.name "Person" [("title", ip.2.title)])
  let personEdges := p.keyPeople.enum.map (fun ip =>
    GraphEdge.mk ("node_person_" ++ toString ip.1) "node_company" "works_at")
  let locNodes := p.locations.enum.map (fun il =>
    GraphNode.mk ("node_location_" ++ toString il.1) il.2 "Location" [])
  let locEdges := p.locations.enum.map (fun il =>
    GraphEdge.mk "node_company" ("node_location_" ++ toString il.1) "located_at")
  (GraphNode.mk "node_company" p.name "Company"
      [("industry", p.industry), ("domain", p.domain)] :: personNodes ++ locNodes,
    personEdges ++ locEdges)

/-- `AutonomousLeadAgent._build_graph` (agents.py lines 266-305): the company
root node, person nodes/edges, the first five product nodes with `produces`
edges, and the first three location nodes with `has_office_in` edges. -/
def buildGraphAgents (p : Profile) : List GraphNode × List GraphEdge :=
  let personNodes := p.keyPeople.enum.map (fun ip =>
    GraphNode.mk ("node_person_" ++ toString ip.1) ip.2.name "Person" [("title", ip.2.title)])
  let personEdges := p.keyPeople.enum.map (fun ip =>
    GraphEdge.mk ("node_person_" ++ toString ip.1) "node_company" "works_at")
  let prodNodes := (p.productsServices.take 5).enum.map (fun ip =>
    GraphNode.mk ("node_prod_" ++ toString ip.1) ip.2 "Product" [])
  let prodEdges := (p.productsServices.take 5).enum.map (fun ip =>
    GraphEdge.mk "node_company" ("node_prod_" ++ toString ip.1) "produces")
  let locNodes := (p.locations.take 3).enum.map (fun il =>
    GraphNode.mk ("node_loc_" ++ toString il.1) il.2 "Location" [])
  let locEdges := (p.locations.take 3).enum.map (fun il =>
    GraphEdge.mk "node_company" ("node_loc_" ++ toString il.1) "has_office_in")
  (GraphNode.mk "node_company" p.name "Company" [("industry", p.industry)] :: personNodes ++ prodNodes ++ locNodes,
    personEdges ++ prodEdges ++ locEdges)

/-! ## Helper lemmas -/

theorem dictGet_dictSet_self (d : Dict) (k : String) (v : Value) :
    dictGet (dictSet d k v) k = v := by
  induction d with
  | nil => simp [dictSet, dictGet]
  | cons kv rest ih =>
    by_cases h : kv.1 == k
    · simp [dictSet, dictGet, h]
    · simp only [dictSet, h]
      simp only [Bool.false_eq_true, if_false]
      simp [dictGet, h, ih]

theorem dictGet_dictSet_ne (d : Dict) (k j : String) (v : Value) (h : j ≠ k) :
    dictGet (dictSet d k v) j = dictGet d j := by
  induction d with
  | nil =>
    simp only [dictSet, dictGet]
    have : (k == j) = false := by simp [Ne.symm h]
    simp [this]
  | cons kv rest ih =>
    by_cases hk : kv.1 == k
    · have hkj : (k == j) = false := by simp [Ne.symm h]
      have hkvj : (kv.1 == j) = false := by
        have := eq_of_beq hk
        simp [this, Ne.symm h]
      simp [dictSet, dictGet, hk, hkj, hkvj]
    · simp only [dictSet, hk, Bool.false_eq_true, if_false]
      by_cases hj : kv.1 == j
      · simp [dictGet, hj]
      · simp [dictGet, hj, ih]

theorem empty_pyStripLower_len : pyLen (pyStripLower "") = 0 := rfl

mutual
theorem cleanData_of_clean : ∀ v : Value, isCleanV v = true → cleanData v = v
  | .null, _ => rfl
  | .bool _, _ => rfl
  | .num _, _ => rfl
  | .str s, h => by
    simp only [isCleanV, Bool.not_eq_true'] at h
    have h2 : pyLower s ∉ cleanSentinels := by simpa using h
    simp [cleanData, h2]
  | .list l, h => by
    simp only [isCleanV] at h
    simp [cleanData, cleanList_of_clean l h]
  | .dict d, h => by
    simp only [isCleanV] at h
    simp [cleanData, cleanDict_of_clean d h]

theorem cleanList_of_clean : ∀ l : List Value, isCleanL l = true → cleanList l = l
  | [], _ => rfl
  | x :: xs, h => by
    simp only [isCleanL, Bool.and_eq_true] at h
    obtain ⟨⟨ht, hx⟩, hxs⟩ := h
    simp [cleanList, ht, cleanData_of_clean x hx, cleanList_of_clean xs hxs]

theorem cleanDict_of_clean : ∀ d : List (String × Value), isCleanD d = true → cleanDict d = d
  | [], _ => rfl
  | (k, v) :: xs, h => by
    simp only [isCleanD, Bool.and_eq_true] at h
    simp [cleanDict, cleanData_of_clean v h.1, cleanDict_of_clean xs h.2]
end

theorem cleanData_str_idem (s : String) :
    cleanData (cleanData (Value.str s)) = cleanData (Value.str s) := by
  by_cases h : pyLower s ∈ cleanSentinels
  · have he : pyLower "" ∉ cleanSentinels := by decide
    simp [cleanData, h, he]
  · simp [cleanData, h]

/-! ## C1 -/

/-- C1 (counterexample): the claim says a mapping whose values are all falsy
is insufficient, but both validators accept any non-empty dict without
looking at its values: `{"a": ""}` has only the falsy value `""` yet
`validate_extraction` does not flag it missing and `_is_valid_field_data`
returns `True` for it. -/
theorem C1_mapping_counterexample :
    fieldValueMissing (Value.dict [("a", Value.str "")]) = false ∧
    isValidFieldData (Value.dict [("a", Value.str "")]) = true ∧
    truthy (Value.str "") = false := by decide

/-- C1 (amended): the sufficiency decision of both validators on every field
value: falsy (empty/absent) values are insufficient; a string is judged by its
stripped lower-cased form against the minimum length (5 for the bulk
validator, 3 for the retry validator) and the sentinel list; an empty list is
insufficient and a non-empty list sufficient; a NON-EMPTY mapping is always
sufficient, even when all its values are falsy (only the empty mapping, being
falsy, is insufficient); and the concrete boundary cases "n/a", "",
"Fintech", `[]`, `["ISO 27001"]` behave as the spec states. -/
theorem C1_sufficiency_amended :
    (∀ v : Value, truthy v = false → fieldValueMissing v = true ∧ isValidFieldData v = false) ∧
    (∀ s : String, pyLen (pyStripLower s) < 5 ∨ pyStripLower s ∈ bulkSentinels →
      fieldValueMissing (Value.str s) = true) ∧
    (∀ s : String, 5 ≤ pyLen (pyStripLower s) → pyStripLower s ∉ bulkSentinels →
      fieldValueMissing (Value.str s) = false) ∧
    (∀ s : String, pyLen (pyStripLower s) < 3 ∨ pyStripLower s ∈ retrySentinels →
      isValidFieldData (Value.str s) = false) ∧
    (∀ s : String, 3 ≤ pyLen (pyStripLower s) → pyStripLower s ∉ retrySentinels →
      isValidFieldData (Value.str s) = true) ∧
    (∀ l : List Value, fieldValueMissing (Value.list l) = l.isEmpty ∧
      isValidFieldData (Value.list l) = !l.isEmpty) ∧
    (∀ d : Dict, d ≠ [] → fieldValueMissing (Value.dict d) = false ∧
      isValidFieldData (Value.dict d) = true) ∧
    (fieldValueMissing (Value.str "n/a") = true ∧ isValidFieldData (Value.str "n/a") = false) ∧
    (fieldValueMissing (Value.str "") = true ∧ isValidFieldData (Value.str "") = false) ∧
    (fieldValueMissing (Value.str "Fintech") = false ∧
      isValidFieldData (Value.str "Fintech") = true) ∧
    fieldValueMissing (Value.list []) = true ∧
    (fieldValueMissing (Value.list [Value.str "ISO 27001"]) = false ∧
      isValidFieldData (Value.list [Value.str "ISO 27001"]) = true) := by
  refine ⟨?_, ?_, ?_, ?_, ?_, ?_, ?_, by decide, by decide, by decide, by decide, by decide⟩
  · intro v hv
    constructor
    · simp [fieldValueMissing, hv]
    · simp [isValidFieldData, hv]
  · intro s h
    by_cases hs : s = ""
    · subst hs; decide
    · have ht : truthy (Value.str s) = true := by simp [truthy, hs]
      rcases h with h | h
      · simp [fieldValueMissing, ht, h]
      · simp [fieldValueMissing, ht, h]
  · intro s h5 hc
    have hs : s ≠ "" := by
      intro he; subst he
      rw [empty_pyStripLower_len] at h5; omega
    have hlt : ¬ pyLen (pyStripLower s) < 5 := by omega
    simp [fieldValueMissing, truthy, hs, hlt, hc]
  · intro s h
    by_cases hs : s = ""
    · subst hs; decide
    · have ht : truthy (Value.str s) = true := by simp [truthy, hs]
      rcases h with h | h
      · simp [isValidFieldData, ht, h]
      · have : ¬ pyLen (pyStripLower s) < 3 ∨ pyLen (pyStripLower s) < 3 := by omega
        rcases this with h3 | h3
        · simp [isValidFieldData, ht, h3, h]
        · simp [isValidFieldData, ht, h3]
  · intro s h3 hc
    have hs : s ≠ "" := by
      intro he; subst he
      rw [empty_pyStripLower_len] at h3; omega
    have hlt : ¬ pyLen (pyStripLower s) < 3 := by omega
    simp [isValidFieldData, truthy, hs, hlt, hc]
  · intro l
    by_cases hl : l.isEmpty
    · constructor
      · simp [fieldValueMissing, truthy, hl]
      · simp [isValidFieldData, truthy, hl]
    · have hne : truthy (Value.list l) = true := by simp [truthy, Bool.not_eq_true] at hl ⊢; simp [hl]
      constructor
      · simp only [fieldValueMissing, hne]
        simp [Bool.not_eq_true] at hl
        simp [hl]
      · simp only [isValidFieldData, hne]
        simp [Bool.not_eq_true, List.isEmpty_iff] at hl
        simp [hl, List.length_pos, Bool.not_eq_true]
  · intro d hd
    have hne : truthy (Value.dict d) = true := by
      simp [truthy, List.isEmpty_iff, hd]
    constructor
    · simp [fieldValueMissing, hne]
    · simp [isValidFieldData, hne]

/-- Witness for C1: a concrete non-empty mapping with a truthy value is
sufficient for both validators. -/
theorem C1_sufficiency_amended_witness :
    fieldValueMissing (Value.dict [("k", Value.str "ok")]) = false ∧
    isValidFieldData (Value.dict [("k", Value.str "ok")]) = true :=
  C1_sufficiency_amended.2.2.2.2.2.2.1 [("k", Value.str "ok")] (by simp)

/-! ## C10 -/

/-- C10: the bulk validator flags a string whose stripped lower-cased form
has length 3 or 4 as missing (threshold 5), while the retry validity check
(threshold 3, also applied by the final status report) accepts every
non-sentinel such string, so a retry attempt returning it resolves the field
even though bulk validation would classify the same value as missing. -/
theorem C10_threshold_gap (s : String)
    (h3 : 3 ≤ pyLen (pyStripLower s)) (h5 : pyLen (pyStripLower s) < 5)
    (hsent : pyStripLower s ∉ retrySentinels) :
    fieldValueMissing (Value.str s) = true ∧
    isValidFieldData (Value.str s) = true ∧
    finalFieldOk [("industry", Value.str s)] "industry" = true := by
  have hs : s ≠ "" := by
    intro he; subst he
    rw [empty_pyStripLower_len] at h3; omega
  have hvalid : isValidFieldData (Value.str s) = true := by
    have hlt : ¬ pyLen (pyStripLower s) < 3 := by omega
    simp [isValidFieldData, truthy, hs, hlt, hsent]
  refine ⟨?_, hvalid, ?_⟩
  · simp [fieldValueMissing, truthy, hs, h5]
  · have hmap : fieldMapping "industry" = "industry" := by decide
    have hget : dictGet [("industry", Value.str s)] "industry" = Value.str s := by
      simp [dictGet]
    have htr : truthy (Value.str s) = true := by simp [truthy, hs]
    simp [finalFieldOk, finalFieldValue, hmap, hget, htr, hvalid]

/-- Witness for C10 at the length-3 string "abc". -/
theorem C10_threshold_gap_witness :
    fieldValueMissing (Value.str "abc") = true ∧
    isValidFieldData (Value.str "abc") = true ∧
    finalFieldOk [("industry", Value.str "abc")] "industry" = true :=
  C10_threshold_gap "abc" (by decide) (by decide) (by decide)

/-! ## C4 -/

/-- C4 (counterexample): sentinel cleaning is not idempotent. Cleaning
`["n/a"]` once keeps the (truthy) sentinel element and rewrites it to `""`,
yielding `[""]`; cleaning a second time drops the now-falsy `""` element,
yielding `[]`. -/
theorem C4_idempotence_counterexample :
    cleanData (Value.list [Value.str "n/a"]) = Value.list [Value.str ""] ∧
    cleanData (cleanData (Value.list [Value.str "n/a"])) = Value.list [] ∧
    Value.list [Value.str ""] ≠ Value.list [] := by
  refine ⟨?_, ?_, ?_⟩
  · simp [cleanData, cleanList, truthy, cleanSentinels, pyLower]
  · simp [cleanData, cleanList, truthy, cleanSentinels, pyLower]
  · intro h
    injection h with h2
    simp at h2

/-- C4 (amended): cleaning is the identity (hence idempotent) on every value
in which every string at any depth is non-sentinel AND every list element at
any depth is truthy, and it is idempotent on every plain string; full
idempotence fails only through lists, whose elements are filtered for
truthiness before cleaning but can become falsy afterwards. -/
theorem C4_cleaning_amended (v : Value) (h : isCleanV v = true) (s : String) :
    cleanData v = v ∧ cleanData (cleanData v) = cleanData v ∧
    cleanData (cleanData (Value.str s)) = cleanData (Value.str s) := by
  have h1 := cleanData_of_clean v h
  refine ⟨h1, ?_, cleanData_str_idem s⟩
  rw [h1]
  exact h1

/-- Witness for C4 on a clean concrete list and the sentinel string "n/a". -/
theorem C4_cleaning_amended_witness :
    cleanData (Value.list [Value.str "hello"]) = Value.list [Value.str "hello"] ∧
    cleanData (cleanData (Value.list [Value.str "hello"])) =
      cleanData (Value.list [Value.str "hello"]) ∧
    cleanData (cleanData (Value.str "n/a")) = cleanData (Value.str "n/a") :=
  C4_cleaning_amended (Value.list [Value.str "hello"])
    (by simp [isCleanV, isCleanL, truthy, cleanSentinels, pyLower]) "n/a"

/-! ## C2 and C3: the per-field retry loop -/

/-- An attempt on which nothing is stored: `_execute_field_retry` returned
`None`, or a value that is falsy or rejected by `_is_valid_field_data`. -/
def attemptFails (f : Nat → Option Value) (a : Nat) : Prop :=
  ∀ v, f a = some v → (truthy v && isValidFieldData v) = false

theorem runAttempts_all_fail (f : Nat → Option Value) :
    ∀ l : List Nat, (∀ a ∈ l, attemptFails f a) → runAttempts f l = (l, none)
  | [], _ => rfl
  | a :: rest, h => by
    have hrest := runAttempts_all_fail f rest (fun b hb => h b (List.mem_cons_of_mem a hb))
    have ha := h a (List.mem_cons_self a rest)
    simp only [runAttempts]
    cases hfa : f a with
    | none => simp [hrest]
    | some w =>
      have hw := ha w hfa
      simp [hw, hrest]

theorem runAttempts_first_success (f : Nat → Option Value) (k : Nat) (v : Value)
    (hfk : f k = some v) (hv : (truthy v && isValidFieldData v) = true) :
    ∀ l1 : List Nat, (∀ a ∈ l1, attemptFails f a) →
      ∀ l2 : List Nat, runAttempts f (l1 ++ k :: l2) = (l1 ++ [k], some v)
  | [], _, l2 => by simp [runAttempts, hfk, hv]
  | a :: rest, h, l2 => by
    have ih := runAttempts_first_success f k v hfk hv rest
      (fun b hb => h b (List.mem_cons_of_mem a hb)) l2
    have ha := h a (List.mem_cons_self a rest)
    simp only [List.cons_append, runAttempts]
    cases hfa : f a with
    | none => simp [ih]
    | some w =>
      have hw := ha w hfa
      simp [hw, ih]

theorem range1_split (k n : Nat) (h1 : 1 ≤ k) (h2 : k ≤ n) :
    List.range' 1 n = List.range' 1 (k - 1) ++ k :: List.range' (k + 1) (n - k) := by
  have ha := List.range'_append 1 (k - 1) (n - (k - 1)) 1
  have e1 : 1 + 1 * (k - 1) = k := by omega
  have e2 : n - (k - 1) = (n - k) + 1 := by omega
  have e3 : n - (k - 1) + (k - 1) = n := by omega
  rw [e1] at ha
  rw [e3] at ha
  rw [e2] at ha
  rw [List.range'_succ] at ha
  exact ha.symm

/-- C2: for a field whose every retry attempt yields data the validator
rejects (or no data at all), the loop invokes `_execute_field_retry` on
exactly the attempts `1 .. max_retries` (so exactly `max_retries` attempts),
stores nothing, leaves the extraction state unchanged, and — the prior stored
value being empty — the final status report still lists the field as
missing. -/
theorem C2_retry_ceiling (f : Nat → Option Value) (maxRetries : Nat) (data : Dict)
    (field : String)
    (hall : ∀ a ∈ List.range' 1 maxRetries, attemptFails f a)
    (hEmpty : truthy (finalFieldValue data field) = false) :
    (retryOneField f maxRetries).1 = List.range' 1 maxRetries ∧
    (retryOneField f maxRetries).1.length = maxRetries ∧
    (retryOneField f maxRetries).2 = none ∧
    retryUpdate data field (retryOneField f maxRetries).2 = data ∧
    finalFieldOk (retryUpdate data field (retryOneField f maxRetries).2) field = false := by
  have h : retryOneField f maxRetries = (List.range' 1 maxRetries, none) :=
    runAttempts_all_fail f (List.range' 1 maxRetries) hall
  rw [h]
  refine ⟨rfl, by simp [List.length_range'], rfl, rfl, ?_⟩
  simp [retryUpdate, finalFieldOk, hEmpty]

/-- Witness for C2: with an oracle that always returns `None` and a ceiling
of 3, exactly attempts 1, 2, 3 run, the state is unchanged and the field is
reported missing. -/
theorem C2_retry_ceiling_witness :
    (retryOneField (fun _ => none) 3).1 = List.range' 1 3 ∧
    (retryOneField (fun _ => none) 3).1.length = 3 ∧
    (retryOneField (fun _ => none) 3).2 = none ∧
    retryUpdate [] "industry" (retryOneField (fun _ => none) 3).2 = [] ∧
    finalFieldOk (retryUpdate [] "industry" (retryOneField (fun _ => none) 3).2) "industry"
      = false :=
  C2_retry_ceiling (fun _ => none) 3 [] "industry"
    (fun a _ => fun v hv => by simp at hv) (by decide)

/-- C3: the first retry attempt `k` whose extracted value passes the validity
check stores that value under both the internal and the original field name
and terminates the loop: retry queries are generated and
`_execute_field_retry` invoked exactly on attempts `1 .. k`, hence never on
any attempt number later than `k`. -/
theorem C3_retry_early_stop (f : Nat → Option Value) (maxRetries k : Nat) (v : Value)
    (data : Dict) (field : String)
    (hk1 : 1 ≤ k) (hk2 : k ≤ maxRetries)
    (hfk : f k = some v) (hvalid : (truthy v && isValidFieldData v) = true)
    (hbef : ∀ a ∈ List.range' 1 (k - 1), attemptFails f a) :
    (retryOneField f maxRetries).1 = List.range' 1 k ∧
    (∀ a ∈ (retryOneField f maxRetries).1, a ≤ k) ∧
    (retryOneField f maxRetries).2 = some v ∧
    dictGet (retryUpdate data field (retryOneField f maxRetries).2) field = v ∧
    dictGet (retryUpdate data field (retryOneField f maxRetries).2) (fieldMapping field)
      = v := by
  have hsplit := range1_split k maxRetries hk1 hk2
  have hres : retryOneField f maxRetries = (List.range' 1 (k - 1) ++ [k], some v) := by
    rw [retryOneField, hsplit]
    exact runAttempts_first_success f k v hfk hvalid (List.range' 1 (k - 1)) hbef
      (List.range' (k + 1) (maxRetries - k))
  have htr : List.range' 1 (k - 1) ++ [k] = List.range' 1 k := by
    have hc := @List.range'_concat 1 1 (k - 1)
    have e1 : (k - 1) + 1 = k := by omega
    have e2 : 1 + 1 * (k - 1) = k := by omega
    rw [e1, e2] at hc
    exact hc.symm
  rw [hres, htr]
  refine ⟨rfl, ?_, rfl, ?_, ?_⟩
  · intro a ha
    rw [List.mem_range'_1] at ha
    omega
  · simp [retryUpdate, dictGet_dictSet_self]
  · by_cases hm : fieldMapping field = field
    · rw [hm]
      simp [retryUpdate, dictGet_dictSet_self]
    · simp only [retryUpdate]
      rw [dictGet_dictSet_ne _ _ _ _ hm]
      exact dictGet_dictSet_self data (fieldMapping field) v

/-- Witness for C3: an oracle whose attempt 1 returns the valid value
"Software" resolves the field at attempt 1 of 3, and the loop runs attempt 1
only. -/
theorem C3_retry_early_stop_witness :
    (retryOneField (fun n => if n == 1 then some (Value.str "Software") else none) 3).1
      = List.range' 1 1 ∧
    (retryOneField (fun n => if n == 1 then some (Value.str "Software") else none) 3).2
      = some (Value.str "Software") ∧
    dictGet (retryUpdate [] "industry"
        (retryOneField (fun n => if n == 1 then some (Value.str "Software") else none) 3).2)
      "industry" = Value.str "Software" ∧
    dictGet (retryUpdate [] "industry"
        (retryOneField (fun n => if n == 1 then some (Value.str "Software") else none) 3).2)
      (fieldMapping "industry") = Value.str "Software" := by
  have h := C3_retry_early_stop (fun n => if n == 1 then some (Value.str "Software") else none)
    3 1 (Value.str "Software") [] "industry" (by decide) (by decide) rfl (by decide)
    (fun a ha => absurd ha (List.not_mem_nil a))
  exact ⟨h.1, h.2.2.1, h.2.2.2.1, h.2.2.2.2⟩

/-! ## C5 -/

/-- C5 (counterexample): an exception raised inside the `generate_json` call
propagates uncaught out of both `BulkExtractor.extract_all_fields` and
`MicroAgent._execute_research_attempt` — neither call site has a try/except —
so a generation-interface error does abort the run rather than yielding an
empty result. -/
theorem C5_exception_counterexample :
    extractAllFields (Except.error "ValueError") = Except.error "ValueError" ∧
    executeResearchAttempt (Except.error "ValueError") = Except.error "ValueError" :=
  ⟨rfl, rfl⟩

/-- C5 (amended): when the generation call returns without raising, a falsy
or malformed response yields an empty result and no exception (an empty dict
from bulk extraction; `None` from the micro-agent, whose `result.get("data")`
on a response without the expected key is `None`); but an exception raised
inside the generation call propagates unchanged out of both call sites. -/
theorem C5_error_handling_amended (e : String) (d : Dict) :
    extractAllFields (Except.ok []) = Except.ok [] ∧
    executeResearchAttempt (Except.ok []) = Except.ok Value.null ∧
    executeResearchAttempt (Except.ok d) = Except.ok (cleanData (dictGet d "data")) ∧
    extractAllFields (Except.error e) = Except.error e ∧
    executeResearchAttempt (Except.error e) = Except.error e :=
  ⟨rfl, rfl, rfl, rfl, rfl⟩

/-! ## C6 -/

theorem getFieldPriority_cases (f : String) :
    getFieldPriority f = 1 ∨ getFieldPriority f = 2 ∨ getFieldPriority f = 3 := by
  unfold getFieldPriority
  split
  · exact Or.inl rfl
  · split
    · exact Or.inr (Or.inl rfl)
    · exact Or.inr (Or.inr rfl)

theorem sortMissing_perm (l : List String) : (sortMissingByPriority l).Perm l := by
  have h1 := List.filter_append_perm (fun f => getFieldPriority f == 1) l
  have h2 := List.filter_append_perm (fun f => getFieldPriority f == 2)
    (l.filter (fun f => !(getFieldPriority f == 1)))
  have eq2 : (l.filter (fun f => !(getFieldPriority f == 1))).filter
      (fun f => getFieldPriority f == 2) = l.filter (fun f => getFieldPriority f == 2) := by
    rw [List.filter_filter]
    refine List.filter_congr ?_
    intro a _
    rcases getFieldPriority_cases a with h | h | h <;> simp [h]
  have eq3 : (l.filter (fun f => !(getFieldPriority f == 1))).filter
      (fun f => !(getFieldPriority f == 2)) = l.filter (fun f => getFieldPriority f == 3) := by
    rw [List.filter_filter]
    refine List.filter_congr ?_
    intro a _
    rcases getFieldPriority_cases a with h | h | h <;> simp [h]
  rw [eq2, eq3] at h2
  have hstep : (sortMissingByPriority l).Perm
      (l.filter (fun f => getFieldPriority f == 1) ++
        l.filter (fun f => !(getFieldPriority f == 1))) := by
    have : sortMissingByPriority l
        = l.filter (fun f => getFieldPriority f == 1) ++
          (l.filter (fun f => getFieldPriority f == 2) ++
            l.filter (fun f => getFieldPriority f == 3)) := by
      simp [sortMissingByPriority]
    rw [this]
    exact List.Perm.append_left _ h2
  exact hstep.trans h1

theorem sortMissing_sorted (l : List String) :
    (sortMissingByPriority l).Pairwise
      (fun a b => getFieldPriority a ≤ getFieldPriority b) := by
  have mem1 : ∀ a ∈ l.filter (fun f => getFieldPriority f == 1), getFieldPriority a = 1 := by
    intro a ha
    have := (List.mem_filter.mp ha).2
    simpa using this
  have mem2 : ∀ a ∈ l.filter (fun f => getFieldPriority f == 2), getFieldPriority a = 2 := by
    intro a ha
    have := (List.mem_filter.mp ha).2
    simpa using this
  have mem3 : ∀ a ∈ l.filter (fun f => getFieldPriority f == 3), getFieldPriority a = 3 := by
    intro a ha
    have := (List.mem_filter.mp ha).2
    simpa using this
  unfold sortMissingByPriority
  rw [List.append_assoc, List.pairwise_append]
  refine ⟨?_, ?_, ?_⟩
  · exact List.pairwise_of_forall_mem_list
      (fun a ha b hb => by rw [mem1 a ha, mem1 b hb])
  · rw [List.pairwise_append]
    refine ⟨?_, ?_, ?_⟩
    · exact List.pairwise_of_forall_mem_list
        (fun a ha b hb => by rw [mem2 a ha, mem2 b hb])
    · exact List.pairwise_of_forall_mem_list
        (fun a ha b hb => by rw [mem3 a ha, mem3 b hb])
    · intro a ha b hb
      rw [mem2 a ha, mem3 b hb]
      omega
  · intro a ha b hb
    rcases List.mem_append.mp hb with hb | hb
    · rw [mem1 a ha, mem2 b hb]
      omega
    · rw [mem1 a ha, mem3 b hb]
      omega

/-- C6: `sort_missing_by_priority` returns the missing fields ordered by
priority tier — critical (1) first, important (2) next, all other fields (3)
last — and it is a permutation of its input; concretely, for the missing set
{tags, industry, sic_text}, the critical field `industry` comes first. -/
theorem C6_priority_order (l : List String) :
    (sortMissingByPriority l).Pairwise
      (fun a b => getFieldPriority a ≤ getFieldPriority b) ∧
    (sortMissingByPriority l).Perm l ∧
    sortMissingByPriority ["tags", "industry", "sic_text"]
      = ["industry", "tags", "sic_text"] ∧
    getFieldPriority "industry" = 1 ∧ getFieldPriority "tags" = 2 ∧
    getFieldPriority "sic_text" = 2 :=
  ⟨sortMissing_sorted l, sortMissing_perm l, by decide, by decide, by decide, by decide⟩

/-! ## C9 -/

/-- C9: graph derivation is a deterministic function of the profile contents
it reads (name, domain, industry, key people, locations, products): two
profiles that agree on those fields — regardless of any other content —
derive identical graphs, in both the optimized pipeline and the autonomous
agent, so re-running the derivation on the same profile yields an identical
graph. -/
theorem C9_graph_deterministic (p q : Profile)
    (hn : p.name = q.name) (hd : p.domain = q.domain) (hi : p.industry = q.industry)
    (hk : p.keyPeople = q.keyPeople) (hl : p.locations = q.locations)
    (hp : p.productsServices = q.productsServices) :
    buildGraphOptimized p = buildGraphOptimized q ∧
    buildGraphAgents p = buildGraphAgents q := by
  constructor
  · simp [buildGraphOptimized, hn, hd, hi, hk, hl]
  · simp [buildGraphAgents, hn, hi, hk, hl, hp]

/-- Witness for C9: two profiles differing only in the long description
derive the same graphs. -/
theorem C9_graph_deterministic_witness :
    buildGraphOptimized (Profile.mk "Acme" "acme.com" "first description" "Software"
        [KeyPerson.mk "Jane Doe" "CEO"] ["London"] ["Widgets"]) =
      buildGraphOptimized (Profile.mk "Acme" "acme.com" "a different description" "Software"
        [KeyPerson.mk "Jane Doe" "CEO"] ["London"] ["Widgets"]) ∧
    buildGraphAgents (Profile.mk "Acme" "acme.com" "first description" "Software"
        [KeyPerson.mk "Jane Doe" "CEO"] ["London"] ["Widgets"]) =
      buildGraphAgents (Profile.mk "Acme" "acme.com" "a different description" "Software"
        [KeyPerson.mk "Jane Doe" "CEO"] ["London"] ["Widgets"]) :=
  C9_graph_deterministic _ _ rfl rfl rfl rfl rfl rfl

/-! ## C7 and C8: deduplicated scraping -/

theorem scrapeLoop_trace_not_skipped (scrape : String → Option String) (maxUrls : Nat) :
    ∀ (urls : List String) (st : ScrapeState) (u : String),
      u ∈ (scrapeLoop scrape maxUrls urls st).trace →
      u ∈ st.trace ∨ isSkippedDomain u = false := by
  intro urls
  induction urls with
  | nil =>
    intro st u hu
    exact Or.inl hu
  | cons url rest ih =>
    intro st u hu
    by_cases hcnt : maxUrls ≤ st.count
    · simp only [scrapeLoop, hcnt, if_true] at hu
      exact Or.inl hu
    · cases hc : cacheLookup st.cache url with
      | some c =>
        simp only [scrapeLoop, hcnt, if_false, hc] at hu
        exact ih
          { st with combined := st.combined ++ "\n\n--- CACHED: " ++ url ++ " ---\n" ++ c }
          u hu
      | none =>
        by_cases hsk : isSkippedDomain url = true
        · simp only [scrapeLoop, hcnt, if_false, hc, hsk, if_true] at hu
          exact ih st u hu
        · have hfin : ∀ st2 : ScrapeState, st2.trace = st.trace ++ [url] →
              u ∈ (scrapeLoop scrape maxUrls rest st2).trace →
              u ∈ st.trace ∨ isSkippedDomain u = false := by
            intro st2 htr2 hu2
            rcases ih st2 u hu2 with h | h
            · rw [htr2] at h
              rcases List.mem_append.mp h with h | h
              · exact Or.inl h
              · have he : u = url := by simpa using h
                subst he
                exact Or.inr (by simpa using hsk)
            · exact Or.inr h
          cases hscr : scrape url with
          | some content =>
            by_cases hne : (content != "") = true
            · simp only [scrapeLoop, hcnt, if_false, hc, hsk, hscr, hne, if_true, Bool.false_eq_true] at hu
              exact hfin _ rfl hu
            · simp only [scrapeLoop, hcnt, if_false, hc, hsk, hscr, hne, Bool.false_eq_true] at hu
              exact hfin _ rfl hu
          | none =>
            simp only [scrapeLoop, hcnt, if_false, hc, hsk, hscr, Bool.false_eq_true, if_false] at hu
            exact hfin _ rfl hu

theorem scrapeLoop_trace_append (scrape : String → Option String) (maxUrls : Nat) :
    ∀ (urls : List String) (st : ScrapeState),
      ∃ t, (scrapeLoop scrape maxUrls urls st).trace = st.trace ++ t ∧ t.Sublist urls := by
  intro urls
  induction urls with
  | nil =>
    intro st
    exact ⟨[], by simp [scrapeLoop], List.nil_sublist _⟩
  | cons url rest ih =>
    intro st
    by_cases hcnt : maxUrls ≤ st.count
    · refine ⟨[], ?_, List.nil_sublist _⟩
      simp [scrapeLoop, hcnt]
    · cases hc : cacheLookup st.cache url with
      | some c =>
        obtain ⟨t, ht, hs⟩ := ih
          { st with combined := st.combined ++ "\n\n--- CACHED: " ++ url ++ " ---\n" ++ c }
        refine ⟨t, ?_, hs.cons url⟩
        simp only [scrapeLoop, hcnt, if_false, hc]
        exact ht
      | none =>
        by_cases hsk : isSkippedDomain url = true
        · obtain ⟨t, ht, hs⟩ := ih st
          refine ⟨t, ?_, hs.cons url⟩
          simp only [scrapeLoop, hcnt, if_false, hc, hsk, if_true]
          exact ht
        · cases hscr : scrape url with
          | some content =>
            by_cases hne : (content != "") = true
            · obtain ⟨t, ht, hs⟩ := ih
                { cache := st.cache ++ [(url, content)],
                  combined := st.combined ++ "\n\n--- SOURCE: " ++ url ++ " ---\n" ++ content,
                  count := st.count + 1,
                  trace := st.trace ++ [url] }
              refine ⟨url :: t, ?_, hs.cons₂ url⟩
              simp only [scrapeLoop, hcnt, if_false, hc, hsk, hscr, hne, if_true, Bool.false_eq_true]
              rw [ht]
              simp
            · obtain ⟨t, ht, hs⟩ := ih { st with trace := st.trace ++ [url] }
              refine ⟨url :: t, ?_, hs.cons₂ url⟩
              simp only [scrapeLoop, hcnt, if_false, hc, hsk, hscr, hne, Bool.false_eq_true]
              rw [ht]
              simp
          | none =>
            obtain ⟨t, ht, hs⟩ := ih { st with trace := st.trace ++ [url] }
            refine ⟨url :: t, ?_, hs.cons₂ url⟩
            simp only [scrapeLoop, hcnt, if_false, hc, hsk, hscr, Bool.false_eq_true, if_false]
            rw [ht]
            simp

/-- C7 (counterexample): the retry path has no denylist: a facebook.com URL
appearing among a retry attempt's search results is among the URLs
`_execute_field_retry` passes to `browser.scrape_text`, although its host
matches the denylist. -/
theorem C7_denylist_counterexample :
    isSkippedDomain "https://facebook.com/acme" = true ∧
    retryScrapeUrls ["https://facebook.com/acme", "https://example.com/a"]
      = ["https://facebook.com/acme", "https://example.com/a"] := by decide

/-- C7 (amended): during bulk deduplicated scraping every URL passed to
`browser.scrape_text` has a host that does not match the social-media
denylist (denylisted URLs are skipped before any fetch); the retry path,
however, applies no such filter to its top search results. -/
theorem C7_denylist_amended (scrape : String → Option String) (maxUrls : Nat)
    (urls : List String) (st : ScrapeState) (u : String)
    (hu : u ∈ (scrapeDeduplicatedUrls scrape urls maxUrls st).trace) :
    u ∈ st.trace ∨ isSkippedDomain u = false :=
  scrapeLoop_trace_not_skipped scrape maxUrls (urls.take (maxUrls * 2)) st u hu

/-- Witness for C7: with an empty starting state, the non-denylisted URL is
the one fetched; the facebook URL ahead of it in the deduplicated list is
not. -/
theorem C7_denylist_amended_witness :
    "https://example.com/a" ∈ (⟨[], "", 0, []⟩ : ScrapeState).trace ∨
      isSkippedDomain "https://example.com/a" = false :=
  C7_denylist_amended (fun _ => some "text") 10
    ["https://facebook.com/acme", "https://example.com/a"] ⟨[], "", 0, []⟩
    "https://example.com/a" (by decide)

/-- C8 (counterexample): a URL surfaced by both the bulk pass and a retry
attempt is fetched twice in one run: `scrape_deduplicated_urls` scrapes and
caches it once, but `_execute_field_retry` passes its top result URLs
straight to `browser.scrape_text` without consulting the run-scoped cache,
so the claim that each URL is fetched at most once per run fails. -/
theorem C8_dedup_counterexample :
    ((scrapeDeduplicatedUrls (fun _ => some "c") ["https://example.com/p"] 10
        ⟨[], "", 0, []⟩).trace
      ++ retryScrapeUrls ["https://example.com/p"]).count "https://example.com/p" = 2 := by
  decide

/-- C8 (amended): within `scrape_deduplicated_urls` — the only cache-aware
fetch path — each URL is fetched at most once per run: the fetch trace
extends the prior trace by a deduplicated sublist of the input URL list, and
concretely, when a second field's fetch sees URL X again after a first fetch
stored X in the run-scoped cache, no new fetch of X occurs while X's content
is still appended (as a CACHED block) to the second combined context.  The
retry path (`_execute_field_retry`) bypasses this cache. -/
theorem C8_dedup_amended (scrape : String → Option String) (maxUrls : Nat)
    (urls : List String) (st : ScrapeState) (hnd : urls.Nodup) :
    (∃ t, (scrapeDeduplicatedUrls scrape urls maxUrls st).trace = st.trace ++ t ∧
      t.Sublist urls ∧ t.Nodup) ∧
    (scrapeDeduplicatedUrls (fun _ => some "content") ["https://example.com/p"] 10
      ⟨[], "", 0, []⟩).trace = ["https://example.com/p"] ∧
    (scrapeDeduplicatedUrls (fun _ => some "content") ["https://example.com/p"] 10
      (scrapeDeduplicatedUrls (fun _ => some "content") ["https://example.com/p"] 10
        ⟨[], "", 0, []⟩)).trace = ["https://example.com/p"] ∧
    cacheLookup (scrapeDeduplicatedUrls (fun _ => some "content") ["https://example.com/p"] 10
      (scrapeDeduplicatedUrls (fun _ => some "content") ["https://example.com/p"] 10
        ⟨[], "", 0, []⟩)).cache "https://example.com/p" = some "content" ∧
    strContains (scrapeDeduplicatedUrls (fun _ => some "content") ["https://example.com/p"] 10
      (scrapeDeduplicatedUrls (fun _ => some "content") ["https://example.com/p"] 10
        ⟨[], "", 0, []⟩)).combined "content" = true := by
  refine ⟨?_, by decide, by decide, by decide, by decide⟩
  obtain ⟨t, ht, hs⟩ := scrapeLoop_trace_append scrape maxUrls (urls.take (maxUrls * 2)) st
  have hsub : t.Sublist urls := hs.trans (List.take_sublist _ _)
  exact ⟨t, ht, hsub, hsub.nodup hnd⟩

/-- Witness for C8: concrete two-pass run on a singleton URL list. -/
theorem C8_dedup_amended_witness :
    (∃ t, (scrapeDeduplicatedUrls (fun _ => some "content") ["https://example.com/p"] 10
        ⟨[], "", 0, []⟩).trace = (⟨[], "", 0, []⟩ : ScrapeState).trace ++ t ∧
      t.Sublist ["https://example.com/p"] ∧ t.Nodup) ∧
    (scrapeDeduplicatedUrls (fun _ => some "content") ["https://example.com/p"] 10
      ⟨[], "", 0, []⟩).trace = ["https://example.com/p"] ∧
    (scrapeDeduplicatedUrls (fun _ => some "content") ["https://example.com/p"] 10
      (scrapeDeduplicatedUrls (fun _ => some "content") ["https://example.com/p"] 10
        ⟨[], "", 0, []⟩)).trace = ["https://example.com/p"] ∧
    cacheLookup (scrapeDeduplicatedUrls (fun _ => some "content") ["https://example.com/p"] 10
      (scrapeDeduplicatedUrls (fun _ => some "content") ["https://example.com/p"] 10
        ⟨[], "", 0, []⟩)).cache "https://example.com/p" = some "content" ∧
    strContains (scrapeDeduplicatedUrls (fun _ => some "content") ["https://example.com/p"] 10
      (scrapeDeduplicatedUrls (fun _ => some "content") ["https://example.com/p"] 10
        ⟨[], "", 0, []⟩)).combined "content" = true :=
  C8_dedup_amended (fun _ => some "content") 10 ["https://example.com/p"] ⟨[], "", 0, []⟩
    (by decide)

end Atlas
